import Mathlib

/-
Verification of the routing and translation layer of the claude-code-proxy
repository (Go).  Go strings are modelled as lists of runes (`List Char`),
Go byte slices as lists of naturals below 256, Go maps as association lists
or functions into `Option`, and fallible code as `Option`/`Except`.
-/

namespace ClaudeProxy

/-- Go strings, modelled at rune granularity. -/
abbrev Str := List Char

/-- Embed a Lean string literal into the rune-list model. -/
def str (s : String) : Str := s.data

/-- Go `unicode.IsSpace`: the Unicode White_Space property
(`\t \n \v \f \r space NEL NBSP` plus the Unicode space separators). -/
def goIsSpace (c : Char) : Bool :=
  c == ' ' || c == '\t' || c == '\n' || c == '\u000b' || c == '\u000c' ||
  c == '\r' || c.toNat == 0x85 || c.toNat == 0xa0 || c.toNat == 0x1680 ||
  (0x2000 ≤ c.toNat && c.toNat ≤ 0x200a) ||
  c.toNat == 0x2028 || c.toNat == 0x2029 || c.toNat == 0x202f ||
  c.toNat == 0x205f || c.toNat == 0x3000

/-- Go `strings.TrimSpace`: remove leading and trailing Unicode whitespace. -/
def trimSpace (s : Str) : Str :=
  ((s.reverse.dropWhile goIsSpace).reverse).dropWhile goIsSpace

/-- Go `strings.HasPrefix`. -/
def hasPrefix (s pre : Str) : Bool := pre.isPrefixOf s

/-- Go `strings.TrimPrefix`: drop `pre` from the front of `s` when present. -/
def strTrimPrefix (s pre : Str) : Str :=
  if pre.isPrefixOf s then s.drop pre.length else s

/-- Go `strings.Index`: position of the first occurrence of `sub` in `s`
(`none` models the -1 "not found" result). -/
def strIndex (s sub : Str) : Option Nat :=
  match s with
  | [] => if sub.isPrefixOf ([] : Str) then some 0 else none
  | c :: tl =>
    if sub.isPrefixOf (c :: tl) then some 0
    else (strIndex tl sub).map (· + 1)

/-- Go `strings.Contains`: `Index >= 0`. -/
def strContains (s sub : Str) : Bool := (strIndex s sub).isSome

/-- Go `strings.ToLower`, restricted to its ASCII case (header names in the
claims are ASCII; Go lowercases them bytewise via `unicode.ToLower`). -/
def toLowerAscii (s : Str) : Str :=
  s.map fun c =>
    if 'A' ≤ c && c ≤ 'Z' then Char.ofNat (c.toNat + 32) else c

/-! ### crypto/sha256 and encoding/hex, over bytes modelled as `Nat < 256`.
32-bit machine words are `Nat` reduced mod `2 ^ 32`. -/

/-- `2 ^ 32`, the modulus of 32-bit machine arithmetic. -/
def M32 : Nat := 4294967296

/-- 32-bit rotate right. -/
def rotr32 (n x : Nat) : Nat := ((x >>> n) ||| (x <<< (32 - n))) % M32

/-- SHA-256 big sigma 0. -/
def bsig0 (x : Nat) : Nat := (rotr32 2 x).xor ((rotr32 13 x).xor (rotr32 22 x))

/-- SHA-256 big sigma 1. -/
def bsig1 (x : Nat) : Nat := (rotr32 6 x).xor ((rotr32 11 x).xor (rotr32 25 x))

/-- SHA-256 small sigma 0. -/
def ssig0 (x : Nat) : Nat := (rotr32 7 x).xor ((rotr32 18 x).xor (x >>> 3))

/-- SHA-256 small sigma 1. -/
def ssig1 (x : Nat) : Nat := (rotr32 17 x).xor ((rotr32 19 x).xor (x >>> 10))

/-- SHA-256 choice function (`~x` is the 32-bit complement). -/
def ch32 (x y z : Nat) : Nat := (x &&& y).xor ((x.xor (M32 - 1)) &&& z)

/-- SHA-256 majority function. -/
def maj32 (x y z : Nat) : Nat := ((x &&& y).xor (x &&& z)).xor (y &&& z)

/-- The 64 SHA-256 round constants of FIPS 180-4 (decimal). -/
def sha256K : List Nat :=
  [1116352408, 1899447441, 3049323471, 3921009573, 961987163, 1508970993,
   2453635748, 2870763221, 3624381080, 310598401, 607225278, 1426881987,
   1925078388, 2162078206, 2614888103, 3248222580, 3835390401, 4022224774,
   264347078, 604807628, 770255983, 1249150122, 1555081692, 1996064986,
   2554220882, 2821834349, 2952996808, 3210313671, 3336571891, 3584528711,
   113926993, 338241895, 666307205, 773529912, 1294757372, 1396182291,
   1695183700, 1986661051, 2177026350, 2456956037, 2730485921, 2820302411,
   3259730800, 3345764771, 3516065817, 3600352804, 4094571909, 275423344,
   430227734, 506948616, 659060556, 883997877, 958139571, 1322822218,
   1537002063, 1747873779, 1955562222, 2024104815, 2227730452, 2361852424,
   2428436474, 2756734187, 3204031479, 3329325298]

/-- The SHA-256 initial hash value of FIPS 180-4 (decimal). -/
def sha256H0 : List Nat :=
  [1779033703, 3144134277, 1013904242, 2773480762,
   1359893119, 2600822924, 528734635, 1541459225]

/-- Big-endian 8-byte encoding of a 64-bit length. -/
def be64 (n : Nat) : List Nat :=
  [(n >>> 56) % 256, (n >>> 48) % 256, (n >>> 40) % 256, (n >>> 32) % 256,
   (n >>> 24) % 256, (n >>> 16) % 256, (n >>> 8) % 256, n % 256]

/-- SHA-256 message padding: a 0x80 byte, zeros to 56 mod 64, then the
bit length big-endian. -/
def sha256Pad (msg : List Nat) : List Nat :=
  let L := msg.length
  let zeros := (120 - (L + 1) % 64) % 64
  msg ++ [0x80] ++ List.replicate zeros 0 ++ be64 (8 * L)

/-- Split a byte list into 64-byte blocks. -/
def chunks64 (l : List Nat) : List (List Nat) :=
  if h : l = [] then []
  else l.take 64 :: chunks64 (l.drop 64)
termination_by l.length
decreasing_by
  cases l with
  | nil => exact absurd rfl h
  | cons a tl => simpa using Nat.lt_succ_of_le (Nat.sub_le _ _)

/-- Group bytes into big-endian 32-bit words. -/
def be32Words : List Nat → List Nat
  | b0 :: b1 :: b2 :: b3 :: rest =>
    (((b0 * 256 + b1) * 256 + b2) * 256 + b3) :: be32Words rest
  | _ => []

/-- Extend the 16 block words to the 64-entry message schedule. -/
def sha256Schedule (ws : List Nat) : List Nat :=
  (List.range 48).foldl
    (fun acc _ =>
      let m := acc.length
      let w2 := acc.getD (m - 2) 0
      let w7 := acc.getD (m - 7) 0
      let w15 := acc.getD (m - 15) 0
      let w16 := acc.getD (m - 16) 0
      acc ++ [(w16 + ssig0 w15 + w7 + ssig1 w2) % M32])
    ws

/-- One SHA-256 compression round on the 8-word working state. -/
def sha256Round (st : List Nat) (kw : Nat × Nat) : List Nat :=
  match st with
  | [a, b, c, d, e, f, g, h] =>
    let t1 := (h + bsig1 e + ch32 e f g + kw.1 + kw.2) % M32
    let t2 := (bsig0 a + maj32 a b c) % M32
    [(t1 + t2) % M32, a, b, c, (d + t1) % M32, e, f, g]
  | other => other

/-- Process one 64-byte block into the running hash. -/
def sha256Block (H : List Nat) (block : List Nat) : List Nat :=
  let ws := sha256Schedule (be32Words block)
  let st := (sha256K.zip ws).foldl sha256Round H
  List.zipWith (fun x y => (x + y) % M32) H st

/-- Big-endian 4-byte encoding of a 32-bit word. -/
def be32 (w : Nat) : List Nat :=
  [(w >>> 24) % 256, (w >>> 16) % 256, (w >>> 8) % 256, w % 256]

/-- Go `crypto/sha256`: the SHA-256 digest (32 bytes) of a byte list. -/
def sha256 (msg : List Nat) : List Nat :=
  ((chunks64 (sha256Pad msg)).foldl sha256Block sha256H0).foldr
    (fun w acc => be32 w ++ acc) []

/-- A lowercase hexadecimal digit. -/
def hexDigit (n : Nat) : Char :=
  if n < 10 then Char.ofNat ('0'.toNat + n) else Char.ofNat ('a'.toNat + n - 10)

/-- Go `encoding/hex.EncodeToString` over bytes. -/
def hexEncode (bs : List Nat) : Str :=
  bs.foldr (fun b acc => hexDigit (b / 16) :: hexDigit (b % 16) :: acc) []

/-- UTF-8 encoding of one rune (Go `[]byte(string)` conversion). -/
def utf8EncodeChar (c : Char) : List Nat :=
  let n := c.toNat
  if n < 0x80 then [n]
  else if n < 0x800 then
    [0xc0 ||| (n >>> 6), 0x80 ||| (n &&& 0x3f)]
  else if n < 0x10000 then
    [0xe0 ||| (n >>> 12), 0x80 ||| ((n >>> 6) &&& 0x3f), 0x80 ||| (n &&& 0x3f)]
  else
    [0xf0 ||| (n >>> 18), 0x80 ||| ((n >>> 12) &&& 0x3f),
     0x80 ||| ((n >>> 6) &&& 0x3f), 0x80 ||| (n &&& 0x3f)]

/-- UTF-8 encoding of a string (Go `[]byte(s)`). -/
def utf8Encode (s : Str) : List Nat :=
  s.foldr (fun c acc => utf8EncodeChar c ++ acc) []

/-! ### internal/service/model_router.go -/

/-- model_router.go `hashString`: SHA-256 of the string, hex encoded,
truncated to the first 16 characters. -/
def hashString (s : Str) : Str :=
  (hexEncode (sha256 (utf8Encode s))).take 16

/-- model_router.go `extractStaticPrompt`: the portion of the system prompt
before the `"\nNotes:"` marker (falling back to `"\n\nNotes:"`), trimmed;
the whole prompt trimmed when no marker is found. -/
def extractStaticPrompt (systemPrompt : Str) : Str :=
  let notesIndex := strIndex systemPrompt (str "\nNotes:")
  let notesIndex :=
    match notesIndex with
    | none => strIndex systemPrompt (str "\n\nNotes:")
    | some i => some i
  match notesIndex with
  | some i => trimSpace (systemPrompt.take i)
  | none => trimSpace systemPrompt

/-- The router fingerprint of a system prompt: `extractStaticPrompt` followed
by `hashString`, as composed in `loadCustomAgents` and `DetermineRoute`. -/
def fingerprint (s : Str) : Str := hashString (extractStaticPrompt s)

/-- model.AnthropicSystemMessage, restricted to the field the router reads. -/
structure AnthropicSystemMessage where
  Text : Str
  deriving DecidableEq

/-- model.AnthropicRequest, restricted to the fields the router reads. -/
structure AnthropicRequest where
  Model : Str
  System : List AnthropicSystemMessage
  Stream : Bool
  deriving DecidableEq

/-- model_router.go `SubagentDefinition`. -/
structure SubagentDefinition where
  Name : Str
  TargetModel : Str
  TargetProvider : Str
  FullPrompt : Str
  deriving DecidableEq

/-- model_router.go `providerPattern` (the Go field `prefix` is a reserved
word in Lean and is named `pref` here). -/
structure ProviderPattern where
  pref : Str
  provider : Str
  deriving DecidableEq

/-- model_router.go `providerPatterns`: ordered prefix rules, first match
wins. -/
def providerPatterns : List ProviderPattern :=
  [⟨str "gpt-", str "openai"⟩,
   ⟨str "o1", str "openai"⟩,
   ⟨str "o3", str "openai"⟩,
   ⟨str "claude-", str "anthropic"⟩]

/-- model_router.go `ModelRouter`: the provider map sends a provider name to
its configured instance (modelled by an opaque identifier; `none` models a
nil entry or a missing key), and `customAgentPrompts` sends a prompt hash to
the subagent definition loaded at startup. -/
structure ModelRouter where
  subagentsEnable : Bool
  providers : Str → Option Str
  customAgentPrompts : Str → Option SubagentDefinition

/-- model_router.go `RoutingDecision` (`Provider` is a nilable interface
value in Go, hence an `Option`). -/
structure RoutingDecision where
  Provider : Option Str
  OriginalModel : Str
  TargetModel : Str
  deriving DecidableEq

/-- model_router.go `getProviderNameForModel`: walk `providerPatterns` in
order, first prefix match wins, defaulting to "anthropic". -/
def getProviderNameForModel (model : Str) : Str :=
  match providerPatterns.find? (fun pattern => pattern.pref.isPrefixOf model) with
  | some pattern => pattern.provider
  | none => str "anthropic"

/-- model_router.go `DetermineRoute`.  The Go function receives the request
through a pointer; the second component of the result models the contents of
that request when the function returns (every `return` statement of the
source leaves it untouched, which this embedding makes explicit). -/
def DetermineRoute (r : ModelRouter) (req : AnthropicRequest) :
    Except Str RoutingDecision × AnthropicRequest :=
  let decision : RoutingDecision :=
    { Provider := none, OriginalModel := req.Model, TargetModel := req.Model }
  if r.subagentsEnable = false then
    let providerName := getProviderNameForModel decision.TargetModel
    let decision := { decision with Provider := r.providers providerName }
    if decision.Provider = none then
      (Except.error (str "no provider found for model " ++ decision.TargetModel), req)
    else
      (Except.ok decision, req)
  else
    let defaultRoute : Except Str RoutingDecision × AnthropicRequest :=
      let providerName := getProviderNameForModel decision.TargetModel
      let decision := { decision with Provider := r.providers providerName }
      if decision.Provider = none then
        (Except.error (str "no provider found for model " ++ decision.TargetModel), req)
      else
        (Except.ok decision, req)
    match req.System with
    | [sys0, sys1] =>
      if strContains sys0.Text (str "You are Claude Code") then
        let fullPrompt := sys1.Text
        let staticPrompt := extractStaticPrompt fullPrompt
        let promptHash := hashString staticPrompt
        match r.customAgentPrompts promptHash with
        | some definition =>
          let decision := { decision with
            TargetModel := definition.TargetModel
            Provider := r.providers definition.TargetProvider }
          if decision.Provider = none then
            (Except.error (str "provider " ++ definition.TargetProvider ++
              str " not found for model " ++ definition.TargetModel), req)
          else
            (Except.ok decision, req)
        | none => defaultRoute
      else defaultRoute
    | _ => defaultRoute

/-- The simpler truncation function of the refinement claim: cut at the
first `"\nNotes:"` occurrence when present, and trim. -/
def extractStaticPromptSimple (systemPrompt : Str) : Str :=
  match strIndex systemPrompt (str "\nNotes:") with
  | some i => trimSpace (systemPrompt.take i)
  | none => trimSpace systemPrompt

/-! ### internal/handler/handlers.go: the /v1/chat/completions handler -/

/-- model.ChatCompletionRequest, restricted to the field the handler reads. -/
structure ChatCompletionRequest where
  Model : Str
  deriving DecidableEq

/-- The observable outcome of the ChatCompletions handler: HTTP status, the
error-envelope message when an error is written, the canned response when
one is written, and whether anything was forwarded upstream. -/
structure ChatCompletionsOutcome where
  status : Nat
  errorMessage : Option Str
  cannedModel : Option Str
  cannedContent : Option Str
  forwardedUpstream : Bool
  deriving DecidableEq

/-- handlers.go `ChatCompletions`: body read failure gives 400, a JSON parse
failure gives 400 "Invalid JSON", and otherwise a canned 200 chat-completion
response is written; nothing is ever forwarded upstream.  `body` is the
decompressed request body (`none` models a read failure) and
`unmarshalChatReq` models `encoding/json.Unmarshal` into
ChatCompletionRequest (`none` models a parse error). -/
def ChatCompletions (body : Option Str)
    (unmarshalChatReq : Str → Option ChatCompletionRequest) :
    ChatCompletionsOutcome :=
  match body with
  | none =>
    { status := 400, errorMessage := some (str "Error reading request body"),
      cannedModel := none, cannedContent := none, forwardedUpstream := false }
  | some bytes =>
    match unmarshalChatReq bytes with
    | none =>
      { status := 400, errorMessage := some (str "Invalid JSON"),
        cannedModel := none, cannedContent := none, forwardedUpstream := false }
    | some req =>
      { status := 200
        errorMessage := none
        cannedModel := some (if req.Model = [] then str "claude-3-sonnet" else req.Model)
        cannedContent :=
          some (str "Hello! This is a test response from the refactored proxy server.")
        forwardedUpstream := false }

/-! ### JSON values (Go `map[string]interface{}` et al.)

JSON numbers are modelled as integers: the translators only read token
counters, which are integral; Go float64 semantics beyond that is out of
scope of the claims. -/

/-- A parsed JSON value; objects are association lists (Go maps). -/
inductive Json where
  | null
  | bool (b : Bool)
  | num (n : Int)
  | str (s : Str)
  | arr (elems : List Json)
  | obj (fields : List (Str × Json))

/-- Go map indexing combined with the `( map[string]interface{})` type
assertion: a key lookup that yields `none` when the value is not an object
or the key is absent. -/
def Json.lookup : Json → Str → Option Json
  | .obj fields, k => (fields.find? (fun kv => kv.1 == k)).map (fun kv => kv.2)
  | _, _ => none

/-! ### internal/provider/openrouter.go and openai.go -/

/-- openrouter.go `convertOpenRouterChunkToAnthropicEvent`: default to a
`content_block_delta` text event, fill the text from
`choices[0].delta.content`, and switch the type to `message_stop` when
`choices[0].finish_reason` is a non-empty string. -/
def convertOpenRouterChunkToAnthropicEvent (openRouterChunk : Json) : Json :=
  let choice0 : Option Json :=
    match openRouterChunk.lookup (str "choices") with
    | some (Json.arr (c :: _)) => some c
    | _ => none
  let text : Str :=
    match choice0 with
    | some choice =>
      match choice.lookup (str "delta") with
      | some delta =>
        match delta.lookup (str "content") with
        | some (Json.str content) => content
        | _ => []
      | _ => []
    | none => []
  let stop : Bool :=
    match choice0 with
    | some choice =>
      match choice.lookup (str "finish_reason") with
      | some (Json.str finishReason) => !finishReason.isEmpty
      | _ => false
    | none => false
  Json.obj
    [(str "type",
      Json.str (if stop then str "message_stop" else str "content_block_delta")),
     (str "delta", Json.obj
       [(str "type", Json.str (str "text_delta")),
        (str "text", Json.str text)])]

/-- openrouter.go `handleStreamingResponse`: the line loop of the streaming
goroutine, applied to the scanner's lines.  `unmarshal` models
`encoding/json.Unmarshal` (`none` = parse error, the line is skipped).  The
result lists the emitted Anthropic SSE events in order; `data: [DONE]`
emits the terminal `message_stop` event and breaks out of the loop. -/
def handleStreamingLines (unmarshal : Str → Option Json) : List Str → List Json
  | [] => []
  | line :: rest =>
    if hasPrefix line (str "data: ") then
      let data := trimSpace (strTrimPrefix line (str "data: "))
      if data = str "[DONE]" then
        [Json.obj [(str "type", Json.str (str "message_stop"))]]
      else
        match unmarshal data with
        | some openRouterChunk =>
          convertOpenRouterChunkToAnthropicEvent openRouterChunk ::
            handleStreamingLines unmarshal rest
        | none => handleStreamingLines unmarshal rest
    else handleStreamingLines unmarshal rest

/-- openai.go `transformOpenAIStreamToAnthropic`: the body is an `io.Copy`,
so the provider's raw SSE lines pass through untranslated. -/
def transformOpenAIStreamToAnthropic (openAIStream : List Str) : List Str :=
  openAIStream

/-- openai.go `transformOpenAIResponseToAnthropic`, the `content` local:
the first choice's message content string, or the empty string. -/
def openAIContent (openAIResp : Json) : Str :=
  match openAIResp.lookup (str "choices") with
  | some (Json.arr (choice :: _)) =>
    match choice.lookup (str "message") with
    | some msg =>
      match msg.lookup (str "content") with
      | some (Json.str c) => c
      | _ => []
    | _ => []
  | _ => []

/-- openai.go `transformOpenAIResponseToAnthropic`, after a successful
unmarshal: re-wrap the first choice's message content as an Anthropic
message; `id`, `model` and `usage` are copied from the provider response
(a missing key is Go's nil interface value, i.e. JSON null). -/
def transformOpenAIResponseToAnthropic (openAIResp : Json) : Json :=
  Json.obj
    [(str "id", (openAIResp.lookup (str "id")).getD Json.null),
     (str "type", Json.str (str "message")),
     (str "role", Json.str (str "assistant")),
     (str "content",
      Json.arr [Json.obj [(str "type", Json.str (str "text")),
                          (str "text", Json.str (openAIContent openAIResp))]]),
     (str "model", (openAIResp.lookup (str "model")).getD Json.null),
     (str "usage", (openAIResp.lookup (str "usage")).getD Json.null)]

/-- openrouter.go `convertOpenRouterToAnthropicResponse`, the
`contentBlocks` local: the first choice's message content as one text
block, or no blocks. -/
def openRouterContentBlocks (openRouterResp : Json) : List Json :=
  match openRouterResp.lookup (str "choices") with
  | some (Json.arr (choice :: _)) =>
    match choice.lookup (str "message") with
    | some message =>
      match message.lookup (str "content") with
      | some (Json.str content) =>
        [Json.obj [(str "type", Json.str (str "text")),
                   (str "text", Json.str content)]]
      | _ => []
    | _ => []
  | _ => []

/-- openrouter.go `convertOpenRouterToAnthropicResponse`, the
`input_tokens` extraction: `usage.prompt_tokens` when it is a number,
0 otherwise. -/
def openRouterInputTokens (openRouterResp : Json) : Int :=
  match openRouterResp.lookup (str "usage") with
  | some usage =>
    match usage.lookup (str "prompt_tokens") with
    | some (Json.num n) => n
    | _ => 0
  | none => 0

/-- openrouter.go `convertOpenRouterToAnthropicResponse`, the
`output_tokens` extraction: `usage.completion_tokens` when it is a number,
0 otherwise. -/
def openRouterOutputTokens (openRouterResp : Json) : Int :=
  match openRouterResp.lookup (str "usage") with
  | some usage =>
    match usage.lookup (str "completion_tokens") with
    | some (Json.num n) => n
    | _ => 0
  | none => 0

/-- openrouter.go `convertOpenRouterToAnthropicResponse`: re-wrap the first
choice's message content as an Anthropic message with the model field
hard-coded to "claude-3-5-sonnet-20241022" and usage counters defaulting
to zero. -/
def convertOpenRouterToAnthropicResponse (openRouterResp : Json) : Json :=
  Json.obj
    [(str "id", (openRouterResp.lookup (str "id")).getD Json.null),
     (str "type", Json.str (str "message")),
     (str "role", Json.str (str "assistant")),
     (str "content", Json.arr (openRouterContentBlocks openRouterResp)),
     (str "model", Json.str (str "claude-3-5-sonnet-20241022")),
     (str "usage", Json.obj
       [(str "input_tokens", Json.num (openRouterInputTokens openRouterResp)),
        (str "output_tokens", Json.num (openRouterOutputTokens openRouterResp))])]

/-- gemini.go `convertGeminiToAnthropicResponse`, the per-part body of the
content loop: a part carrying a text string becomes a text block, any
other part is skipped. -/
def geminiTextPart (part : Json) : Option Json :=
  match part.lookup (str "text") with
  | some (Json.str text) =>
    some (Json.obj [(str "type", Json.str (str "text")),
                    (str "text", Json.str text)])
  | _ => none

/-- gemini.go `convertGeminiToAnthropicResponse`, the content extraction:
all text parts of the first candidate, in order. -/
def geminiContentBlocks (geminiResp : Json) : List Json :=
  match geminiResp.lookup (str "candidates") with
  | some (Json.arr (candidate :: _)) =>
    match candidate.lookup (str "content") with
    | some content =>
      match content.lookup (str "parts") with
      | some (Json.arr parts) => parts.filterMap geminiTextPart
      | _ => []
    | _ => []
  | _ => []

/-- gemini.go `convertGeminiToAnthropicResponse`, the `input_tokens`
extraction: `usageMetadata.promptTokenCount` when it is a number,
0 otherwise. -/
def geminiInputTokens (geminiResp : Json) : Int :=
  match geminiResp.lookup (str "usageMetadata") with
  | some usageMetadata =>
    match usageMetadata.lookup (str "promptTokenCount") with
    | some (Json.num n) => n
    | _ => 0
  | none => 0

/-- gemini.go `convertGeminiToAnthropicResponse`, the `output_tokens`
extraction: `usageMetadata.candidatesTokenCount` when it is a number,
0 otherwise. -/
def geminiOutputTokens (geminiResp : Json) : Int :=
  match geminiResp.lookup (str "usageMetadata") with
  | some usageMetadata =>
    match usageMetadata.lookup (str "candidatesTokenCount") with
    | some (Json.num n) => n
    | _ => 0
  | none => 0

/-- gemini.go `convertGeminiToAnthropicResponse`: collect the text parts of
the first candidate as content blocks, hard-code the model to
"claude-3-5-sonnet-20241022", default usage counters to zero.  `msgId`
models the `fmt.Sprintf("msg_%d", time.Now().Unix())` identifier. -/
def convertGeminiToAnthropicResponse (msgId : Str) (geminiResp : Json) : Json :=
  Json.obj
    [(str "id", Json.str msgId),
     (str "type", Json.str (str "message")),
     (str "role", Json.str (str "assistant")),
     (str "content", Json.arr (geminiContentBlocks geminiResp)),
     (str "model", Json.str (str "claude-3-5-sonnet-20241022")),
     (str "usage", Json.obj
       [(str "input_tokens", Json.num (geminiInputTokens geminiResp)),
        (str "output_tokens", Json.num (geminiOutputTokens geminiResp))])]

/-! ### net/http headers and internal/service/anthropic.go -/

/-- net/http `Header`: canonical keys mapped to value lists, modelled as an
association list (Go map iteration order is unspecified; the list order
fixes one). -/
abbrev Headers := List (Str × List Str)

/-- ASCII lower-casing of one character. -/
def charLowerAscii (c : Char) : Char :=
  if 'A' ≤ c && c ≤ 'Z' then Char.ofNat (c.toNat + 32) else c

/-- ASCII upper-casing of one character. -/
def charUpperAscii (c : Char) : Char :=
  if 'a' ≤ c && c ≤ 'z' then Char.ofNat (c.toNat - 32) else c

/-- net/textproto `CanonicalMIMEHeaderKey` on valid ASCII header names:
uppercase the first letter and every letter after a hyphen, lowercase the
rest.  The flag says whether the next letter starts a word. -/
def canonicalKeyAux : Bool → Str → Str
  | _, [] => []
  | upperNext, c :: rest =>
    let c2 := if upperNext then charUpperAscii c else charLowerAscii c
    c2 :: canonicalKeyAux (c2 == '-') rest

/-- net/textproto `CanonicalMIMEHeaderKey`. -/
def canonicalKey (s : Str) : Str := canonicalKeyAux true s

/-- The per-entry update `Header.Add` performs on an existing key. -/
def headerAddUpdate (ck value : Str) (kv : Str × List Str) : Str × List Str :=
  if kv.1 == ck then (kv.1, kv.2 ++ [value]) else kv

/-- net/http `Header.Add`: canonicalize the key and append the value to the
existing entry, or create a new entry. -/
def headerAdd (h : Headers) (key value : Str) : Headers :=
  let ck := canonicalKey key
  if h.any (fun kv => kv.1 == ck) then h.map (headerAddUpdate ck value)
  else h ++ [(ck, [value])]

/-- net/http `Header.Set`: canonicalize the key and replace the values. -/
def headerSet (h : Headers) (key value : Str) : Headers :=
  (h.filter (fun kv => !(kv.1 == canonicalKey key))) ++ [(canonicalKey key, [value])]

/-- The value list stored under a (canonicalized) header name. -/
def headerValues (h : Headers) (key : Str) : Option (List Str) :=
  (h.find? (fun kv => kv.1 == canonicalKey key)).map (fun kv => kv.2)

/-- net/http `Header.Get`: first stored value, or the empty string. -/
def headerGet (h : Headers) (key : Str) : Str :=
  match headerValues h key with
  | some (v :: _) => v
  | _ => []

/-- anthropic.go `ForwardRequest`: the fixed header exclusion set. -/
def excludedHeaders : List Str :=
  [str "host", str "connection", str "proxy-connection",
   str "proxy-authorization", str "content-length", str "transfer-encoding",
   str "te", str "trailer", str "upgrade"]

/-- anthropic.go `ForwardRequest`, the body of the header-copy loop:
starting from the fresh request's empty header map, copy every inbound
header whose lower-cased name is not excluded (adding each value). -/
def copyHeaderEntry (acc : Headers) (kv : Str × List Str) : Headers :=
  if excludedHeaders.contains (toLowerAscii kv.1) then acc
  else kv.2.foldl (fun acc2 v => headerAdd acc2 kv.1 v) acc

/-- anthropic.go `ForwardRequest`, header construction (see
`copyHeaderEntry` for the loop body). -/
def forwardRequestHeaders (headers : Headers) (apiKey version : Str) : Headers :=
  let copied := headers.foldl copyHeaderEntry []
  let withType := headerSet copied (str "Content-Type") (str "application/json")
  let withVersion := headerSet withType (str "anthropic-version") version
  if apiKey = [] then withVersion else headerSet withVersion (str "x-api-key") apiKey

/-! ### internal/handler/handlers.go: upstream response handling -/

/-- The upstream `http.Response` as the handlers read it (`Body` is the
result of `io.ReadAll`; `none` models a read error). -/
structure UpstreamResponse where
  StatusCode : Nat
  Header : Headers
  Body : Option Str

/-- What the handler writes to the client socket. -/
inductive ClientWrite where
  | errorEnvelope (status : Nat) (message : Str)
  | raw (status : Nat) (body : Str)
  deriving DecidableEq

/-- model.ResponseLog, restricted to the fields the claims read. -/
structure ResponseLogModel where
  StatusCode : Nat
  BodyText : Str
  IsStreaming : Bool
  deriving DecidableEq

/-- handlers.go `decompressForLogging`: gunzip the data when the
Content-Encoding says gzip, falling back to the original bytes on a
decompression error.  `gunzip` models compress/gzip (`none` = error). -/
def decompressForLogging (gunzip : Str → Option Str) (data : Str)
    (headers : Headers) : Str :=
  if strContains (toLowerAscii (headerGet headers (str "Content-Encoding")))
      (str "gzip") then
    match gunzip data with
    | some decompressed => decompressed
    | none => data
  else data

/-- handlers.go `handleNonStreamingResponse`: the original (possibly still
compressed) upstream bytes are written to the client with the upstream
status; the persisted log stores the decompressed text.  Both the 200 and
the non-200 paths of the source write the same status and bytes. -/
def handleNonStreamingResponse (gunzip : Str → Option Str)
    (resp : UpstreamResponse) : ClientWrite × Option ResponseLogModel :=
  match resp.Body with
  | none => (ClientWrite.errorEnvelope 500 (str "Failed to read response"), none)
  | some responseBytes =>
    let decompressedBytes := decompressForLogging gunzip responseBytes resp.Header
    let responseLog : ResponseLogModel :=
      { StatusCode := resp.StatusCode, BodyText := decompressedBytes,
        IsStreaming := false }
    if resp.StatusCode ≠ 200 then
      (ClientWrite.raw resp.StatusCode responseBytes, some responseLog)
    else
      (ClientWrite.raw resp.StatusCode responseBytes, some responseLog)

/-- handlers.go `handleStreamingResponse`, the non-200 branch: the original
error bytes go to the client verbatim, the decompressed text to the
persisted log (an `io.ReadAll` error leaves empty bytes, as in the source
which ignores that error). -/
def handleStreamingErrorResponse (gunzip : Str → Option Str)
    (resp : UpstreamResponse) : ClientWrite × ResponseLogModel :=
  let errorBytes :=
    match resp.Body with
    | some b => b
    | none => []
  let decompressedErrorBytes :=
    decompressForLogging gunzip errorBytes resp.Header
  (ClientWrite.raw resp.StatusCode errorBytes,
   { StatusCode := resp.StatusCode, BodyText := decompressedErrorBytes,
     IsStreaming := true })


/-! ### Concrete fixtures used by witnesses -/

/-- A router with subagent routing disabled and an anthropic provider. -/
def routerDisabled : ModelRouter :=
  { subagentsEnable := false
    providers := fun name =>
      if name = str "anthropic" then some (str "anthropic") else none
    customAgentPrompts := fun _ => none }

/-- A plain Claude request with no system blocks. -/
def reqOpus : AnthropicRequest :=
  { Model := str "claude-3-opus-20240229", System := [], Stream := false }


/-- A well-formed OpenRouter text-delta chunk carrying "Hello". -/
def chunkHello : Json :=
  Json.obj [(str "choices", Json.arr
    [Json.obj [(str "delta", Json.obj [(str "content", Json.str (str "Hello"))])]])]


/-- An OpenAI chat-completion response for "gpt-4o" with no usage field. -/
def openAIRespGpt4o : Json :=
  Json.obj
    [(str "id", Json.str (str "chatcmpl-123")),
     (str "model", Json.str (str "gpt-4o")),
     (str "choices", Json.arr
       [Json.obj [(str "message",
         Json.obj [(str "content", Json.str (str "Hi there"))])]])]

/-- An OpenRouter response with one choice and no usage field. -/
def openRouterRespNoUsage : Json :=
  Json.obj
    [(str "id", Json.str (str "gen-1")),
     (str "choices", Json.arr
       [Json.obj [(str "message",
         Json.obj [(str "content", Json.str (str "Hi there"))])]])]


/-- An OpenRouter response whose usage object carries only prompt_tokens. -/
def openRouterRespPartialUsage : Json :=
  Json.obj
    [(str "id", Json.str (str "gen-2")),
     (str "usage", Json.obj [(str "prompt_tokens", Json.num 7)])]

/-- The claim C7 scenario headers: Host, Connection, Content-Length and a
custom trace header. -/
def hdrsScenario : Headers :=
  [(str "Host", [str "proxy.local"]),
   (str "Connection", [str "keep-alive"]),
   (str "Content-Length", [str "42"]),
   (str "X-Trace-Id", [str "trace-1"])]


/-! ## Theorems -/

/-- Unfolding equation of `strIndex` for the empty string. -/
theorem strIndex_nil (sub : Str) :
    strIndex [] sub = if sub.isPrefixOf [] then some 0 else none := rfl

/-- Unfolding equation of `strIndex` for a nonempty string. -/
theorem strIndex_cons (c : Char) (tl sub : Str) :
    strIndex (c :: tl) sub =
      if sub.isPrefixOf (c :: tl) then some 0
      else (strIndex tl sub).map (· + 1) := rfl

/-- A found index is an occurrence of the pattern. -/
theorem strIndex_some_occ {s sub : Str} {i : Nat} (h : strIndex s sub = some i) :
    sub <+: s.drop i := by
  induction s generalizing i with
  | nil =>
    unfold strIndex at h
    split at h
    · rename_i hp
      cases h
      simpa using List.isPrefixOf_iff_prefix.mp hp
    · cases h
  | cons c tl ih =>
    unfold strIndex at h
    split at h
    · rename_i hp
      cases h
      simpa using List.isPrefixOf_iff_prefix.mp hp
    · cases htl : strIndex tl sub with
      | none => rw [htl] at h; cases h
      | some j =>
        rw [htl] at h
        simp at h
        cases h
        simpa [List.drop_succ_cons] using ih htl

/-- An occurrence of the pattern guarantees the search succeeds. -/
theorem strIndex_isSome_of_occ {s sub : Str} {j : Nat} (h : sub <+: s.drop j) :
    (strIndex s sub).isSome := by
  induction s generalizing j with
  | nil =>
    have hsub : sub = [] := List.prefix_nil.mp (by simpa using h)
    subst hsub
    simp [strIndex, List.isPrefixOf]
  | cons c tl ih =>
    cases j with
    | zero =>
      unfold strIndex
      rw [if_pos (List.isPrefixOf_iff_prefix.mpr (by simpa using h))]
      rfl
    | succ j =>
      rw [List.drop_succ_cons] at h
      unfold strIndex
      split
      · rfl
      · simpa using ih h

/-- A prefix of `x ++ y` short enough to fit in `x` is a prefix of `x`. -/
theorem prefix_append_left {p x y : Str} (h : p <+: x ++ y)
    (hl : p.length ≤ x.length) : p <+: x := by
  rw [List.prefix_iff_eq_take] at h ⊢
  rwa [List.take_append_of_le_length hl] at h

/-- The first occurrence inside `t` is still the first occurrence in
`t ++ s`: appending text cannot create an earlier occurrence. -/
theorem strIndex_append_of_some {sub t : Str} {i : Nat}
    (hsub : strIndex t sub = some i) (s : Str) :
    strIndex (t ++ s) sub = some i := by
  induction t generalizing i with
  | nil =>
    unfold strIndex at hsub
    split at hsub
    · rename_i hp
      cases hsub
      have hnil : sub = [] := List.prefix_nil.mp (List.isPrefixOf_iff_prefix.mp hp)
      subst hnil
      cases s <;> simp [strIndex, List.isPrefixOf]
    · cases hsub
  | cons c tl ih =>
    unfold strIndex at hsub
    by_cases hp : sub.isPrefixOf (c :: tl)
    · rw [if_pos hp] at hsub
      cases hsub
      have hp2 : sub.isPrefixOf (c :: (tl ++ s)) := by
        rw [List.isPrefixOf_iff_prefix] at hp ⊢
        exact hp.trans (by simpa using List.prefix_append (c :: tl) s)
      show strIndex (c :: (tl ++ s)) sub = some 0
      unfold strIndex
      rw [if_pos hp2]
    · rw [if_neg hp] at hsub
      cases htl : strIndex tl sub with
      | none => rw [htl] at hsub; cases hsub
      | some j =>
        rw [htl] at hsub
        simp at hsub
        cases hsub
        have hocc := strIndex_some_occ htl
        have hlen : sub.length ≤ tl.length - j := by
          simpa using hocc.length_le
        have hp2 : ¬ sub.isPrefixOf (c :: (tl ++ s)) := by
          intro hpp
          have hle : sub.length ≤ (c :: tl).length := by
            simp only [List.length_cons]
            omega
          exact hp (List.isPrefixOf_iff_prefix.mpr
            (prefix_append_left
              (by simpa using List.isPrefixOf_iff_prefix.mp hpp) hle))
        show strIndex (c :: (tl ++ s)) sub = some (j + 1)
        unfold strIndex
        rw [if_neg hp2, ih htl]
        rfl

/-- When the pattern does not occur in `t` and cannot straddle the seam
into `s`, searching `t ++ s` is searching `s`, shifted. -/
theorem strIndex_append_of_none {sub t s : Str} (ht : strIndex t sub = none)
    (hspan : ∀ k, 1 ≤ k → k < sub.length → ¬ (sub.drop k <+: s)) :
    strIndex (t ++ s) sub = (strIndex s sub).map (· + t.length) := by
  induction t with
  | nil =>
    cases h : strIndex s sub <;> simp [h]
  | cons c tl ih =>
    unfold strIndex at ht
    by_cases hp : sub.isPrefixOf (c :: tl)
    · rw [if_pos hp] at ht; cases ht
    · rw [if_neg hp] at ht
      have htl : strIndex tl sub = none := by
        cases htlv : strIndex tl sub with
        | none => rfl
        | some j => rw [htlv] at ht; simp at ht
      have hp2 : ¬ sub.isPrefixOf (c :: (tl ++ s)) := by
        intro hpp
        have hpp2 : sub <+: (c :: tl) ++ s := by
          simpa using List.isPrefixOf_iff_prefix.mp hpp
        by_cases hle : sub.length ≤ (c :: tl).length
        · exact hp (List.isPrefixOf_iff_prefix.mpr (prefix_append_left hpp2 hle))
        · push_neg at hle
          obtain ⟨u, hu⟩ := hpp2
          have hdrop := congrArg (List.drop (c :: tl).length) hu
          rw [List.drop_append_of_le_length (le_of_lt hle),
            List.drop_left] at hdrop
          exact hspan (c :: tl).length (by simp) (by omega) ⟨u, hdrop⟩
      show strIndex (c :: (tl ++ s)) sub = (strIndex s sub).map (· + (c :: tl).length)
      rw [strIndex_cons, if_neg hp2, ih htl]
      cases h : strIndex s sub with
      | none => rfl
      | some n =>
        show some (n + tl.length + 1) = some (n + (c :: tl).length)
        rw [List.length_cons, Nat.add_assoc]

/-- The marker `"\nNotes:"` is 7 runes long. -/
theorem marker1_length : (str "\nNotes:").length = 7 := by decide

/-- The marker decomposed into head and tail. -/
theorem marker1_cons : str "\nNotes:" = '\n' :: str "Notes:" := by decide

/-- The double-newline marker is a newline followed by the single one. -/
theorem marker2_cons : str "\n\nNotes:" = '\n' :: str "\nNotes:" := by decide

/-- `"Notes:"` is not a prefix of `"\nNotes:"`. -/
theorem notes_not_prefix_marker1 :
    (str "Notes:").isPrefixOf (str "\nNotes:") = false := by decide

/-- The marker has no self-overlap: no proper nonempty suffix of it is one
of its prefixes. -/
theorem marker1_no_overlap : ∀ k, k < 7 → 1 ≤ k →
    ((str "\nNotes:").drop k).isPrefixOf (str "\nNotes:") = false := by decide

/-- No proper nonempty suffix of the marker starts with a newline. -/
theorem marker1_drop_head : ∀ k, k < 7 → 1 ≤ k →
    ¬ (((str "\nNotes:").drop k).head? = some '\n') := by decide

/-- A newline is Go whitespace. -/
theorem goIsSpace_newline : goIsSpace '\n' = true := by decide

/-- Trimming ignores a trailing whitespace character. -/
theorem trimSpace_append_space {xs : Str} {c : Char} (hc : goIsSpace c = true) :
    trimSpace (xs ++ [c]) = trimSpace xs := by
  unfold trimSpace
  rw [List.reverse_append]
  simp [List.dropWhile_cons, hc]

/-- If the single-newline marker does not occur, neither does the
double-newline one (every occurrence of the latter contains one of the
former, one position later). -/
theorem strIndex_marker2_none {s : Str}
    (h : strIndex s (str "\nNotes:") = none) :
    strIndex s (str "\n\nNotes:") = none := by
  cases h2 : strIndex s (str "\n\nNotes:") with
  | none => rfl
  | some j =>
    exfalso
    have hocc := strIndex_some_occ h2
    rw [marker2_cons] at hocc
    obtain ⟨u, hu⟩ := hocc
    rw [List.cons_append] at hu
    have hc := congrArg List.tail hu
    simp only [List.tail_cons] at hc
    rw [List.tail_drop] at hc
    have hocc1 : (str "\nNotes:") <+: s.drop (j + 1) := ⟨u, hc⟩
    have hsome := strIndex_isSome_of_occ hocc1
    rw [h] at hsome
    simp at hsome

/-- `extractStaticPrompt` agrees everywhere with the single-marker
truncation: the `"\n\nNotes:"` fallback search can never fire. -/
theorem extractStaticPrompt_eq_simple (s : Str) :
    extractStaticPrompt s = extractStaticPromptSimple s := by
  unfold extractStaticPrompt extractStaticPromptSimple
  cases h : strIndex s (str "\nNotes:") with
  | some i => simp [h]
  | none => simp [h, strIndex_marker2_none h]

/-- Appending a `Notes:` suffix at the seam cannot straddle an occurrence:
helper for the no-occurrence-in-`T` case when the suffix starts with the
single-newline marker. -/
theorem marker1_no_span_append (rest : Str) :
    ∀ k, 1 ≤ k → k < (str "\nNotes:").length →
      ¬ ((str "\nNotes:").drop k <+: (str "\nNotes:") ++ rest) := by
  intro k h1 h2 hpp
  rw [marker1_length] at h2
  have hle : ((str "\nNotes:").drop k).length ≤ (str "\nNotes:").length := by
    simp [List.length_drop]
  have hpfx := prefix_append_left hpp hle
  have hfalse := marker1_no_overlap k h2 h1
  rw [List.isPrefixOf_iff_prefix.mpr hpfx] at hfalse
  cases hfalse

/-- As above, for a suffix starting with the double-newline marker: a
straddling occurrence would start with a newline, which no proper suffix of
the marker does. -/
theorem marker1_no_span_cons (X : Str) :
    ∀ k, 1 ≤ k → k < (str "\nNotes:").length →
      ¬ ((str "\nNotes:").drop k <+: '\n' :: X) := by
  intro k h1 h2 hpp
  rw [marker1_length] at h2
  cases hA : (str "\nNotes:").drop k with
  | nil =>
    have hlen : (str "\nNotes:").length - k = 0 := by
      rw [← List.length_drop, hA]
      rfl
    rw [marker1_length] at hlen
    omega
  | cons a A2 =>
    obtain ⟨u, hu⟩ := hpp
    rw [hA, List.cons_append] at hu
    injection hu with ha _
    apply marker1_drop_head k h2 h1
    rw [hA, ha]
    rfl

/-- The search for the marker in a string of the form `marker ++ rest`
hits at position 0. -/
theorem strIndex_marker1_self (rest : Str) :
    strIndex ((str "\nNotes:") ++ rest) (str "\nNotes:") = some 0 := by
  have hpfx : (str "\nNotes:").isPrefixOf ((str "\nNotes:") ++ rest) = true :=
    List.isPrefixOf_iff_prefix.mpr (List.prefix_append _ _)
  rw [marker1_cons, List.cons_append, strIndex_cons,
    if_pos (by rw [← List.cons_append, ← marker1_cons]; exact hpfx)]

/-- The search for the marker in `'\n' :: marker ++ rest` (a
double-newline-marker suffix) hits at position 1. -/
theorem strIndex_marker1_after_newline (rest : Str) :
    strIndex ('\n' :: ((str "\nNotes:") ++ rest)) (str "\nNotes:") = some 1 := by
  rw [strIndex_cons]
  have hnp : (str "\nNotes:").isPrefixOf
      ('\n' :: ((str "\nNotes:") ++ rest)) = false := by
    by_contra hcon
    rw [Bool.not_eq_false] at hcon
    obtain ⟨u, hu⟩ := List.isPrefixOf_iff_prefix.mp hcon
    rw [marker1_cons, List.cons_append] at hu
    injection hu with _ hb
    have hpfx : (str "Notes:") <+: (str "\nNotes:") ++ rest := ⟨u, hb⟩
    have hle : (str "Notes:").length ≤ (str "\nNotes:").length := by decide
    have hpm := prefix_append_left hpfx hle
    have hn := notes_not_prefix_marker1
    rw [List.isPrefixOf_iff_prefix.mpr hpm] at hn
    cases hn
  rw [if_neg (by simp [hnp]), strIndex_marker1_self rest]
  rfl

/-- Reduction of the simple truncation when the search succeeds. -/
theorem extractSimple_of_some {s : Str} {i : Nat}
    (h : strIndex s (str "\nNotes:") = some i) :
    extractStaticPromptSimple s = trimSpace (s.take i) := by
  unfold extractStaticPromptSimple
  rw [h]

/-- Reduction of the simple truncation when the search fails. -/
theorem extractSimple_of_none {s : Str}
    (h : strIndex s (str "\nNotes:") = none) :
    extractStaticPromptSimple s = trimSpace s := by
  unfold extractStaticPromptSimple
  rw [h]

/-- Appending a suffix that starts with `"\nNotes:"` or `"\n\nNotes:"`
does not change the extracted static prompt. -/
theorem extractStaticPrompt_append_marker (T S : Str)
    (hS : hasPrefix S (str "\nNotes:") = true ∨
          hasPrefix S (str "\n\nNotes:") = true) :
    extractStaticPrompt (T ++ S) = extractStaticPrompt T := by
  rw [extractStaticPrompt_eq_simple, extractStaticPrompt_eq_simple]
  cases hT : strIndex T (str "\nNotes:") with
  | some i =>
    have hocc := strIndex_some_occ hT
    have hlen : (str "\nNotes:").length ≤ T.length - i := by
      simpa using hocc.length_le
    have hi : i ≤ T.length := by
      rw [marker1_length] at hlen
      omega
    rw [extractSimple_of_some (strIndex_append_of_some hT S),
      extractSimple_of_some hT, List.take_append_of_le_length hi]
  | none =>
    rcases hS with hS | hS
    · obtain ⟨rest, hrest⟩ := List.isPrefixOf_iff_prefix.mp hS
      subst hrest
      have hTS := strIndex_append_of_none hT (marker1_no_span_append rest)
      rw [strIndex_marker1_self rest] at hTS
      simp only [Option.map, Nat.zero_add] at hTS
      rw [extractSimple_of_some hTS, extractSimple_of_none hT, List.take_left]
    · obtain ⟨rest, hrest⟩ := List.isPrefixOf_iff_prefix.mp hS
      subst hrest
      rw [marker2_cons, List.cons_append]
      have hTS := strIndex_append_of_none hT
        (marker1_no_span_cons ((str "\nNotes:") ++ rest))
      rw [strIndex_marker1_after_newline rest] at hTS
      simp only [Option.map] at hTS
      rw [extractSimple_of_some hTS, extractSimple_of_none hT,
        Nat.add_comm 1 T.length, List.take_append]
      show trimSpace (T ++ ['\n']) = trimSpace T
      rw [trimSpace_append_space goIsSpace_newline]

/-- C1: Fingerprint stability.  For every system-prompt string `T` and every
suffix `S` beginning with `"\nNotes:"` or `"\n\nNotes:"`, the router's
fingerprint (`extractStaticPrompt` followed by the 16-hex-character
truncated SHA-256 `hashString`) satisfies
`fingerprint (T ++ S) = fingerprint T`; and for every `T` containing no
such marker, `fingerprint T` is the hash of the whitespace-trimmed `T`. -/
theorem claim_C1 :
    (∀ T S : Str,
      hasPrefix S (str "\nNotes:") = true ∨
        hasPrefix S (str "\n\nNotes:") = true →
      fingerprint (T ++ S) = fingerprint T) ∧
    (∀ T : Str,
      strContains T (str "\nNotes:") = false ∧
        strContains T (str "\n\nNotes:") = false →
      fingerprint T = hashString (trimSpace T)) := by
  constructor
  · intro T S hS
    unfold fingerprint
    rw [extractStaticPrompt_append_marker T S hS]
  · intro T hT
    unfold fingerprint
    rw [extractStaticPrompt_eq_simple]
    have hnone : strIndex T (str "\nNotes:") = none := by
      have h1 := hT.1
      unfold strContains at h1
      cases h : strIndex T (str "\nNotes:") with
      | none => rfl
      | some i => rw [h] at h1; simp at h1
    rw [extractSimple_of_none hnone]

/-- Witness for C1 at concrete inputs: a suffix starting with the marker,
and a marker-free prompt. -/
theorem claim_C1_witness :
    (hasPrefix (str "\nNotes:\n- dynamic state") (str "\nNotes:") = true ∨
      hasPrefix (str "\nNotes:\n- dynamic state") (str "\n\nNotes:") = true) ∧
    fingerprint (str "You are an expert engineer." ++
        str "\nNotes:\n- dynamic state") =
      fingerprint (str "You are an expert engineer.") ∧
    (strContains (str "You are a helpful assistant.") (str "\nNotes:") = false ∧
      strContains (str "You are a helpful assistant.") (str "\n\nNotes:") = false) ∧
    fingerprint (str "You are a helpful assistant.") =
      hashString (trimSpace (str "You are a helpful assistant.")) :=
  ⟨Or.inl (by decide),
   claim_C1.1 _ _ (Or.inl (by decide)),
   ⟨by decide, by decide⟩,
   claim_C1.2 _ ⟨by decide, by decide⟩⟩

/-- C9: `extractStaticPrompt` is equivalent to the simpler function that
truncates at the first `"\nNotes:"` occurrence (when present) and trims:
the `"\n\nNotes:"` fallback is unreachable, because whenever the first
search fails the second must fail too; the two functions agree on every
input. -/
theorem claim_C9 :
    ∀ s : Str,
      extractStaticPrompt s = extractStaticPromptSimple s ∧
      (strIndex s (str "\nNotes:") = none →
        strIndex s (str "\n\nNotes:") = none) :=
  fun s => ⟨extractStaticPrompt_eq_simple s, fun h => strIndex_marker2_none h⟩

/-- Witness for C9 at a concrete marker-free prompt. -/
theorem claim_C9_witness :
    extractStaticPrompt (str "You are an expert.") =
      extractStaticPromptSimple (str "You are an expert.") ∧
    strIndex (str "You are an expert.") (str "\n\nNotes:") = none :=
  ⟨(claim_C9 (str "You are an expert.")).1,
   (claim_C9 (str "You are an expert.")).2 (by decide)⟩

/-- C3: provider resolution applies the ordered prefix rules with first
match winning; `"gpt-4o"` resolves to `"openai"`, `"claude-3-opus"` to
`"anthropic"`, and a name matching no rule resolves to the fallback
`"anthropic"`. -/
theorem claim_C3 :
    getProviderNameForModel (str "gpt-4o") = str "openai" ∧
    getProviderNameForModel (str "claude-3-opus") = str "anthropic" ∧
    (∀ model pat,
      providerPatterns.find? (fun q => q.pref.isPrefixOf model) = some pat →
      getProviderNameForModel model = pat.provider) ∧
    (∀ model,
      (∀ q ∈ providerPatterns, ¬ (q.pref <+: model)) →
      getProviderNameForModel model = str "anthropic") := by
  refine ⟨by decide, by decide, ?_, ?_⟩
  · intro model pat h
    unfold getProviderNameForModel
    rw [h]
  · intro model h
    unfold getProviderNameForModel
    have hnone : providerPatterns.find? (fun q => q.pref.isPrefixOf model) = none := by
      rw [List.find?_eq_none]
      intro q hq
      simpa [List.isPrefixOf_iff_prefix] using h q hq
    rw [hnone]

/-- Witness for C3: the `"o1"` rule fires first for `"o1-mini"`, and an
unmatched name falls back to `"anthropic"`. -/
theorem claim_C3_witness :
    providerPatterns.find? (fun q => q.pref.isPrefixOf (str "o1-mini")) =
      some ⟨str "o1", str "openai"⟩ ∧
    getProviderNameForModel (str "o1-mini") = str "openai" ∧
    (∀ q ∈ providerPatterns, ¬ (q.pref <+: str "mistral-large")) ∧
    getProviderNameForModel (str "mistral-large") = str "anthropic" :=
  ⟨by decide,
   by rw [claim_C3.2.2.1 (str "o1-mini") ⟨str "o1", str "openai"⟩ (by decide)],
   by decide,
   claim_C3.2.2.2 (str "mistral-large") (by decide)⟩

/-- C2: subagent match routing.  With subagent routing enabled, exactly two
system blocks, the first containing "You are Claude Code", a loaded
definition matching the second block's fingerprint, and that definition's
target provider configured, `DetermineRoute` answers with the definition's
target model and provider, preserving the original model. -/
theorem claim_C2 (r : ModelRouter) (req : AnthropicRequest)
    (sys0 sys1 : AnthropicSystemMessage)
    (definition : SubagentDefinition) (p : Str)
    (hEnable : r.subagentsEnable = true)
    (hSystem : req.System = [sys0, sys1])
    (hClaude : strContains sys0.Text (str "You are Claude Code") = true)
    (hMatch : r.customAgentPrompts
      (hashString (extractStaticPrompt sys1.Text)) = some definition)
    (hProv : r.providers definition.TargetProvider = some p) :
    DetermineRoute r req =
      (Except.ok { Provider := some p, OriginalModel := req.Model,
                   TargetModel := definition.TargetModel }, req) := by
  unfold DetermineRoute
  rw [hEnable, hSystem]
  simp [hClaude, hMatch, hProv]

/-- Witness for C2: a concrete router whose agent table recognizes the
second block and maps to gpt-4o on the configured openai provider. -/
theorem claim_C2_witness :
    DetermineRoute
      { subagentsEnable := true
        providers := fun name =>
          if name = str "openai" then some (str "openai") else none
        customAgentPrompts := fun _ =>
          some { Name := str "code-reviewer", TargetModel := str "gpt-4o",
                 TargetProvider := str "openai", FullPrompt := str "review code" } }
      { Model := str "claude-3-opus-20240229"
        System := [⟨str "You are Claude Code, Anthropic's official CLI for Claude."⟩,
                   ⟨str "You are an expert code reviewer."⟩]
        Stream := false } =
      (Except.ok { Provider := some (str "openai")
                   OriginalModel := str "claude-3-opus-20240229"
                   TargetModel := str "gpt-4o" },
       { Model := str "claude-3-opus-20240229"
         System := [⟨str "You are Claude Code, Anthropic's official CLI for Claude."⟩,
                    ⟨str "You are an expert code reviewer."⟩]
         Stream := false }) :=
  claim_C2 _ _ _ _ _ _ rfl rfl (by decide) rfl (by decide)

/-- C10: `DetermineRoute` never mutates its input request: the request the
caller's pointer refers to after the call is the one passed in; the
decision's `OriginalModel` is the request's model field, and a model
override shows up only in `TargetModel`, coming from a loaded agent
definition. -/
theorem claim_C10 (r : ModelRouter) (req : AnthropicRequest)
    (res : Except Str RoutingDecision) (req2 : AnthropicRequest)
    (h : DetermineRoute r req = (res, req2)) :
    req2 = req ∧
    (∀ d, res = Except.ok d →
      d.OriginalModel = req.Model ∧
      (d.TargetModel = req.Model ∨
        ∃ promptHash definition,
          r.customAgentPrompts promptHash = some definition ∧
          d.TargetModel = definition.TargetModel)) := by
  unfold DetermineRoute at h
  simp only [] at h
  repeat' split at h
  all_goals injection h with h1 h2
  all_goals subst h1 h2
  all_goals refine ⟨rfl, fun d hd => ?_⟩
  all_goals first
    | exact Except.noConfusion hd
    | (injection hd with hd1
       subst hd1
       refine ⟨rfl, ?_⟩
       first
        | exact Or.inl rfl
        | (rename_i heq _
           exact Or.inr ⟨_, _, heq, rfl⟩))

/-- Witness for C10: the disabled-subagents router routes a plain request
to the anthropic provider, leaving the request untouched. -/
theorem claim_C10_witness :
    reqOpus = reqOpus ∧
    (∀ d, (Except.ok { Provider := some (str "anthropic")
                       OriginalModel := str "claude-3-opus-20240229"
                       TargetModel := str "claude-3-opus-20240229" } :
             Except Str RoutingDecision) = Except.ok d →
      d.OriginalModel = reqOpus.Model ∧
      (d.TargetModel = reqOpus.Model ∨
        ∃ promptHash definition,
          routerDisabled.customAgentPrompts promptHash = some definition ∧
          d.TargetModel = definition.TargetModel)) :=
  claim_C10 routerDisabled reqOpus
    (Except.ok { Provider := some (str "anthropic")
                 OriginalModel := str "claude-3-opus-20240229"
                 TargetModel := str "claude-3-opus-20240229" })
    reqOpus rfl

/-- Equation of the stream loop on a cons cell. -/
theorem handleStreamingLines_cons (unmarshal : Str → Option Json)
    (line : Str) (rest : List Str) :
    handleStreamingLines unmarshal (line :: rest) =
      if hasPrefix line (str "data: ") then
        let data := trimSpace (strTrimPrefix line (str "data: "))
        if data = str "[DONE]" then
          [Json.obj [(str "type", Json.str (str "message_stop"))]]
        else
          match unmarshal data with
          | some openRouterChunk =>
            convertOpenRouterChunkToAnthropicEvent openRouterChunk ::
              handleStreamingLines unmarshal rest
          | none => handleStreamingLines unmarshal rest
      else handleStreamingLines unmarshal rest := rfl

/-- Order preservation of the OpenRouter stream translator: a stream of
`data:` lines carrying parseable chunks, terminated by `data: [DONE]`,
translates to exactly the converted events in input order followed by one
`message_stop` event. -/
theorem handleStreamingLines_order (unmarshal : Str → Option Json)
    (chunks : Str → Json) (ds : List Str)
    (hds : ∀ d ∈ ds,
      trimSpace d = d ∧ d ≠ str "[DONE]" ∧ unmarshal d = some (chunks d)) :
    handleStreamingLines unmarshal
        (ds.map (fun d => str "data: " ++ d) ++ [str "data: [DONE]"]) =
      ds.map (fun d => convertOpenRouterChunkToAnthropicEvent (chunks d)) ++
        [Json.obj [(str "type", Json.str (str "message_stop"))]] := by
  induction ds with
  | nil => rfl
  | cons d ds ih =>
    obtain ⟨hts, hne, hun⟩ := hds d (by simp)
    have hrest : ∀ x ∈ ds,
        trimSpace x = x ∧ x ≠ str "[DONE]" ∧ unmarshal x = some (chunks x) :=
      fun x hx => hds x (by simp [hx])
    simp only [List.map_cons, List.cons_append]
    rw [handleStreamingLines_cons]
    have hpfx : hasPrefix (str "data: " ++ d) (str "data: ") = true :=
      List.isPrefixOf_iff_prefix.mpr (List.prefix_append _ _)
    rw [if_pos hpfx]
    have htp : strTrimPrefix (str "data: " ++ d) (str "data: ") = d := by
      unfold strTrimPrefix
      rw [if_pos (List.isPrefixOf_iff_prefix.mpr (List.prefix_append _ _))]
      exact List.drop_left _ _
    simp only [htp, hts]
    rw [if_neg hne, hun, ih hrest]

/-- C4 (divergence of the code from its spec and its own test): POSTing a
valid JSON body whose model is "gpt-4" to /v1/chat/completions yields
status 200 with the canned test completion, not a 4xx rejection with an
error body.  (Nothing is forwarded upstream, as the claim says; the status
and error body contradict it and the repository's own
TestChatCompletionsEndpoint, which expects 400 with "This is an Anthropic
proxy. Please use the /v1/messages endpoint instead of
/v1/chat/completions".) -/
theorem claim_C4 :
    ChatCompletions (some (str "chat completion body, model gpt-4"))
        (fun _ => some { Model := str "gpt-4" }) =
      { status := 200
        errorMessage := none
        cannedModel := some (str "gpt-4")
        cannedContent :=
          some (str "Hello! This is a test response from the refactored proxy server.")
        forwardedUpstream := false } ∧
    ¬ (400 ≤ 200 ∧ 200 < 500) :=
  ⟨rfl, by omega⟩

/-- C5 (divergence of openai.go from the claim): the OpenAI stream
translator (`io.Copy`) returns its input lines verbatim — no
content_block_delta and no message_stop event appears anywhere in its
output for a one-delta stream — while the OpenRouter translator on the
same stream emits exactly one content_block_delta event followed by one
message_stop event. -/
theorem claim_C5 :
    transformOpenAIStreamToAnthropic [str "data: chunk1", str "data: [DONE]"] =
      [str "data: chunk1", str "data: [DONE]"] ∧
    (∀ line ∈ transformOpenAIStreamToAnthropic
        [str "data: chunk1", str "data: [DONE]"],
      strContains line (str "content_block_delta") = false ∧
      strContains line (str "message_stop") = false) ∧
    handleStreamingLines (fun d => if d = str "chunk1" then some chunkHello else none)
        [str "data: chunk1", str "data: [DONE]"] =
      [Json.obj [(str "type", Json.str (str "content_block_delta")),
                 (str "delta", Json.obj
                   [(str "type", Json.str (str "text_delta")),
                    (str "text", Json.str (str "Hello"))])],
       Json.obj [(str "type", Json.str (str "message_stop"))]] :=
  ⟨rfl, by decide, rfl⟩

/-- C6 counterexample: the OpenAI response converter passes the provider's
model name and usage through unchanged — the canonical response for a
"gpt-4o" upstream response still says model "gpt-4o" (no canonical
inbound-dialect identifier is substituted) and its usage is JSON null, not
zero-defaulted. -/
theorem claim_C6_counterexample :
    (transformOpenAIResponseToAnthropic openAIRespGpt4o).lookup (str "model") =
      some (Json.str (str "gpt-4o")) ∧
    openAIRespGpt4o.lookup (str "model") = some (Json.str (str "gpt-4o")) ∧
    (transformOpenAIResponseToAnthropic openAIRespGpt4o).lookup (str "usage") =
      some Json.null :=
  ⟨rfl, rfl, rfl⟩

/-- C6 as amended: the OpenRouter and Gemini converters re-wrap the
provider's assistant text in the canonical envelope — role assistant, the
content blocks carrying exactly the provider's message text (one text
block for OpenRouter, the candidate's text parts in order for Gemini) —
substitute the canonical model identifier "claude-3-5-sonnet-20241022",
and default each unmapped usage field to zero individually (a mapped field
keeps its value even when the other is missing); the OpenAI converter
re-wraps role and content the same way but passes the provider's model and
usage fields through unchanged. -/
theorem claim_C6 :
    (∀ resp : Json,
      (convertOpenRouterToAnthropicResponse resp).lookup (str "role") =
          some (Json.str (str "assistant")) ∧
      (convertOpenRouterToAnthropicResponse resp).lookup (str "model") =
          some (Json.str (str "claude-3-5-sonnet-20241022")) ∧
      (convertOpenRouterToAnthropicResponse resp).lookup (str "content") =
          some (Json.arr (openRouterContentBlocks resp)) ∧
      (∀ b ∈ openRouterContentBlocks resp,
        b.lookup (str "type") = some (Json.str (str "text"))) ∧
      (∀ choice rest message c,
        resp.lookup (str "choices") = some (Json.arr (choice :: rest)) →
        choice.lookup (str "message") = some message →
        message.lookup (str "content") = some (Json.str c) →
        openRouterContentBlocks resp =
          [Json.obj [(str "type", Json.str (str "text")),
                     (str "text", Json.str c)]]) ∧
      (convertOpenRouterToAnthropicResponse resp).lookup (str "usage") =
          some (Json.obj
            [(str "input_tokens", Json.num (openRouterInputTokens resp)),
             (str "output_tokens", Json.num (openRouterOutputTokens resp))]) ∧
      (resp.lookup (str "usage") = none →
        openRouterInputTokens resp = 0 ∧ openRouterOutputTokens resp = 0) ∧
      (∀ usage, resp.lookup (str "usage") = some usage →
        ((∀ n : Int, usage.lookup (str "prompt_tokens") ≠ some (Json.num n)) →
          openRouterInputTokens resp = 0) ∧
        (∀ n : Int, usage.lookup (str "prompt_tokens") = some (Json.num n) →
          openRouterInputTokens resp = n) ∧
        ((∀ n : Int, usage.lookup (str "completion_tokens") ≠ some (Json.num n)) →
          openRouterOutputTokens resp = 0) ∧
        (∀ n : Int, usage.lookup (str "completion_tokens") = some (Json.num n) →
          openRouterOutputTokens resp = n))) ∧
    (∀ (msgId : Str) (resp : Json),
      (convertGeminiToAnthropicResponse msgId resp).lookup (str "role") =
          some (Json.str (str "assistant")) ∧
      (convertGeminiToAnthropicResponse msgId resp).lookup (str "model") =
          some (Json.str (str "claude-3-5-sonnet-20241022")) ∧
      (convertGeminiToAnthropicResponse msgId resp).lookup (str "content") =
          some (Json.arr (geminiContentBlocks resp)) ∧
      (∀ b ∈ geminiContentBlocks resp,
        b.lookup (str "type") = some (Json.str (str "text"))) ∧
      (∀ candidate rest candContent parts,
        resp.lookup (str "candidates") = some (Json.arr (candidate :: rest)) →
        candidate.lookup (str "content") = some candContent →
        candContent.lookup (str "parts") = some (Json.arr parts) →
        geminiContentBlocks resp = parts.filterMap geminiTextPart) ∧
      (∀ part t,
        part.lookup (str "text") = some (Json.str t) →
        geminiTextPart part =
          some (Json.obj [(str "type", Json.str (str "text")),
                          (str "text", Json.str t)])) ∧
      (convertGeminiToAnthropicResponse msgId resp).lookup (str "usage") =
          some (Json.obj
            [(str "input_tokens", Json.num (geminiInputTokens resp)),
             (str "output_tokens", Json.num (geminiOutputTokens resp))]) ∧
      (resp.lookup (str "usageMetadata") = none →
        geminiInputTokens resp = 0 ∧ geminiOutputTokens resp = 0) ∧
      (∀ usageMetadata, resp.lookup (str "usageMetadata") = some usageMetadata →
        ((∀ n : Int, usageMetadata.lookup (str "promptTokenCount") ≠
            some (Json.num n)) →
          geminiInputTokens resp = 0) ∧
        (∀ n : Int, usageMetadata.lookup (str "promptTokenCount") =
            some (Json.num n) →
          geminiInputTokens resp = n) ∧
        ((∀ n : Int, usageMetadata.lookup (str "candidatesTokenCount") ≠
            some (Json.num n)) →
          geminiOutputTokens resp = 0) ∧
        (∀ n : Int, usageMetadata.lookup (str "candidatesTokenCount") =
            some (Json.num n) →
          geminiOutputTokens resp = n))) ∧
    (∀ resp : Json,
      (transformOpenAIResponseToAnthropic resp).lookup (str "role") =
          some (Json.str (str "assistant")) ∧
      (transformOpenAIResponseToAnthropic resp).lookup (str "content") =
          some (Json.arr [Json.obj [(str "type", Json.str (str "text")),
                                    (str "text", Json.str (openAIContent resp))]]) ∧
      (∀ choice rest msg c,
        resp.lookup (str "choices") = some (Json.arr (choice :: rest)) →
        choice.lookup (str "message") = some msg →
        msg.lookup (str "content") = some (Json.str c) →
        openAIContent resp = c) ∧
      (transformOpenAIResponseToAnthropic resp).lookup (str "model") =
          some ((resp.lookup (str "model")).getD Json.null) ∧
      (transformOpenAIResponseToAnthropic resp).lookup (str "usage") =
          some ((resp.lookup (str "usage")).getD Json.null)) := by
  refine ⟨fun resp => ⟨rfl, rfl, rfl, ?_, ?_, rfl, ?_, ?_⟩,
          fun msgId resp => ⟨rfl, rfl, rfl, ?_, ?_, ?_, rfl, ?_, ?_⟩,
          fun resp => ⟨rfl, rfl, ?_, rfl, rfl⟩⟩
  · -- every OpenRouter content block is a text block
    intro b hb
    unfold openRouterContentBlocks at hb
    repeat' split at hb
    all_goals simp only [List.mem_singleton, List.not_mem_nil] at hb
    all_goals try cases hb
    all_goals rfl
  · -- the OpenRouter block carries the provider's message text
    intro choice rest message c h1 h2 h3
    unfold openRouterContentBlocks
    rw [h1]
    dsimp only
    rw [h2]
    dsimp only
    rw [h3]
  · -- absent usage object: both counters default to zero
    intro hu
    refine ⟨?_, ?_⟩
    · unfold openRouterInputTokens
      rw [hu]
    · unfold openRouterOutputTokens
      rw [hu]
  · -- per-field defaulting and extraction for OpenRouter usage
    intro usage hu
    refine ⟨?_, ?_, ?_, ?_⟩
    · intro hne
      unfold openRouterInputTokens
      rw [hu]
      dsimp only
      cases hv : usage.lookup (str "prompt_tokens") with
      | none => rfl
      | some j =>
        cases j with
        | num n => exact absurd hv (hne n)
        | null => rfl
        | bool b => rfl
        | str s2 => rfl
        | arr xs => rfl
        | obj fs => rfl
    · intro n hn
      unfold openRouterInputTokens
      rw [hu]
      dsimp only
      rw [hn]
    · intro hne
      unfold openRouterOutputTokens
      rw [hu]
      dsimp only
      cases hv : usage.lookup (str "completion_tokens") with
      | none => rfl
      | some j =>
        cases j with
        | num n => exact absurd hv (hne n)
        | null => rfl
        | bool b => rfl
        | str s2 => rfl
        | arr xs => rfl
        | obj fs => rfl
    · intro n hn
      unfold openRouterOutputTokens
      rw [hu]
      dsimp only
      rw [hn]
  · -- every Gemini content block is a text block
    intro b hb
    unfold geminiContentBlocks at hb
    repeat' split at hb
    all_goals
      first
      | simp only [List.not_mem_nil] at hb
      | (obtain ⟨part, hpart, hf⟩ := List.mem_filterMap.mp hb
         unfold geminiTextPart at hf
         split at hf
         · cases hf
           rfl
         · cases hf)
  · -- the Gemini blocks are exactly the candidate's text parts, in order
    intro candidate rest candContent parts h1 h2 h3
    unfold geminiContentBlocks
    rw [h1]
    dsimp only
    rw [h2]
    dsimp only
    rw [h3]
  · -- a text part becomes the corresponding text block
    intro part t ht
    unfold geminiTextPart
    rw [ht]
  · -- absent usageMetadata object: both counters default to zero
    intro hu
    refine ⟨?_, ?_⟩
    · unfold geminiInputTokens
      rw [hu]
    · unfold geminiOutputTokens
      rw [hu]
  · -- per-field defaulting and extraction for Gemini usage
    intro usageMetadata hu
    refine ⟨?_, ?_, ?_, ?_⟩
    · intro hne
      unfold geminiInputTokens
      rw [hu]
      dsimp only
      cases hv : usageMetadata.lookup (str "promptTokenCount") with
      | none => rfl
      | some j =>
        cases j with
        | num n => exact absurd hv (hne n)
        | null => rfl
        | bool b => rfl
        | str s2 => rfl
        | arr xs => rfl
        | obj fs => rfl
    · intro n hn
      unfold geminiInputTokens
      rw [hu]
      dsimp only
      rw [hn]
    · intro hne
      unfold geminiOutputTokens
      rw [hu]
      dsimp only
      cases hv : usageMetadata.lookup (str "candidatesTokenCount") with
      | none => rfl
      | some j =>
        cases j with
        | num n => exact absurd hv (hne n)
        | null => rfl
        | bool b => rfl
        | str s2 => rfl
        | arr xs => rfl
        | obj fs => rfl
    · intro n hn
      unfold geminiOutputTokens
      rw [hu]
      dsimp only
      rw [hn]
  · -- the OpenAI content string is the provider's message text
    intro choice rest msg c h1 h2 h3
    unfold openAIContent
    rw [h1]
    dsimp only
    rw [h2]
    dsimp only
    rw [h3]

/-- Witness for C6 at concrete responses: a usage-free OpenRouter response
(text carried through, counters zeroed), an OpenRouter usage object with
only prompt_tokens (mapped field kept, unmapped field zeroed), a Gemini
text part, and the OpenAI content extraction. -/
theorem claim_C6_witness :
    (convertOpenRouterToAnthropicResponse openRouterRespNoUsage).lookup
        (str "role") = some (Json.str (str "assistant")) ∧
    openRouterContentBlocks openRouterRespNoUsage =
      [Json.obj [(str "type", Json.str (str "text")),
                 (str "text", Json.str (str "Hi there"))]] ∧
    (openRouterInputTokens openRouterRespNoUsage = 0 ∧
      openRouterOutputTokens openRouterRespNoUsage = 0) ∧
    openRouterInputTokens openRouterRespPartialUsage = 7 ∧
    openRouterOutputTokens openRouterRespPartialUsage = 0 ∧
    (geminiInputTokens openRouterRespNoUsage = 0 ∧
      geminiOutputTokens openRouterRespNoUsage = 0) ∧
    geminiTextPart (Json.obj [(str "text", Json.str (str "Hola"))]) =
      some (Json.obj [(str "type", Json.str (str "text")),
                      (str "text", Json.str (str "Hola"))]) ∧
    openAIContent openAIRespGpt4o = str "Hi there" :=
  ⟨(claim_C6.1 openRouterRespNoUsage).1,
   (claim_C6.1 openRouterRespNoUsage).2.2.2.2.1 _ _ _ _ rfl rfl rfl,
   (claim_C6.1 openRouterRespNoUsage).2.2.2.2.2.2.1 rfl,
   ((claim_C6.1 openRouterRespPartialUsage).2.2.2.2.2.2.2 _ rfl).2.1 7 rfl,
   ((claim_C6.1 openRouterRespPartialUsage).2.2.2.2.2.2.2 _ rfl).2.2.1
     (fun n h => Option.noConfusion h),
   (claim_C6.2.1 (str "msg_1") openRouterRespNoUsage).2.2.2.2.2.2.2.1 rfl,
   (claim_C6.2.1 (str "msg_1") openRouterRespNoUsage).2.2.2.2.2.1 _ _ rfl,
   (claim_C6.2.2 openAIRespGpt4o).2.2.1 _ _ _ _ rfl rfl rfl⟩


/-- `headerAddUpdate` never changes the key of an entry. -/
theorem headerAddUpdate_fst (ck v : Str) (kv : Str × List Str) :
    (headerAddUpdate ck v kv).1 = kv.1 := by
  unfold headerAddUpdate
  split <;> rfl

/-- `Header.Add` under a different canonical key does not disturb a
lookup. -/
theorem headerValues_headerAdd_ne {h : Headers} {k v name : Str}
    (hk : canonicalKey k ≠ canonicalKey name) :
    headerValues (headerAdd h k v) name = headerValues h name := by
  unfold headerAdd headerValues
  by_cases ha : h.any (fun kv => kv.1 == canonicalKey k)
  · rw [if_pos ha, List.find?_map]
    have hcomp : ((fun kv : Str × List Str => kv.1 == canonicalKey name) ∘
        headerAddUpdate (canonicalKey k) v) =
        fun kv : Str × List Str => kv.1 == canonicalKey name := by
      funext kv
      simp [Function.comp, headerAddUpdate_fst]
    rw [hcomp]
    cases hf : List.find? (fun kv => kv.1 == canonicalKey name) h with
    | none => rfl
    | some kv =>
      have hkv0 := List.find?_some hf
      have hkv : kv.1 = canonicalKey name := eq_of_beq hkv0
      have hne : (kv.1 == canonicalKey k) = false :=
        beq_eq_false_iff_ne.mpr (by rw [hkv]; exact fun hcon => hk hcon.symm)
      simp [headerAddUpdate, hne]
  · rw [if_neg ha, List.find?_append]
    have hone : List.find? (fun kv => kv.1 == canonicalKey name)
        [(canonicalKey k, [v])] = none := by
      simp [List.find?_cons, beq_eq_false_iff_ne.mpr hk]
    rw [hone, Option.or_none]

/-- `Header.Add` under the same canonical key appends the value. -/
theorem headerValues_headerAdd_eq {h : Headers} {k v name : Str}
    (hk : canonicalKey k = canonicalKey name) :
    headerValues (headerAdd h k v) name =
      match headerValues h name with
      | none => some [v]
      | some ws => some (ws ++ [v]) := by
  unfold headerAdd headerValues
  rw [hk]
  by_cases ha : h.any (fun kv => kv.1 == canonicalKey name)
  · rw [if_pos ha, List.find?_map]
    have hcomp : ((fun kv : Str × List Str => kv.1 == canonicalKey name) ∘
        headerAddUpdate (canonicalKey name) v) =
        fun kv : Str × List Str => kv.1 == canonicalKey name := by
      funext kv
      simp [Function.comp, headerAddUpdate_fst]
    rw [hcomp]
    obtain ⟨kv, hmem, hp⟩ := List.any_eq_true.mp ha
    cases hf : List.find? (fun kv => kv.1 == canonicalKey name) h with
    | none =>
      rw [List.find?_eq_none] at hf
      exact absurd hp (hf kv hmem)
    | some kv0 =>
      have hbeq0 := List.find?_some hf
      have hbeq : (kv0.1 == canonicalKey name) = true := hbeq0
      simp [headerAddUpdate, hbeq]
  · rw [if_neg ha, List.find?_append]
    have hnone : List.find? (fun kv => kv.1 == canonicalKey name) h = none := by
      rw [List.find?_eq_none]
      intro x hx hpx
      exact ha (List.any_eq_true.mpr ⟨x, hx, hpx⟩)
    rw [hnone]
    simp [List.find?_cons]

/-- Folding `Header.Add` over a value list under a matching key: the values
are appended in order (creating the entry when absent). -/
theorem headerValues_addValues {k name : Str} (hk : canonicalKey k = canonicalKey name)
    (vs : List Str) (h : Headers) :
    headerValues (vs.foldl (fun acc v => headerAdd acc k v) h) name =
      match headerValues h name with
      | none => if vs = [] then none else some vs
      | some ws => some (ws ++ vs) := by
  induction vs generalizing h with
  | nil =>
    cases hv : headerValues h name <;> simp [List.foldl_nil, hv]
  | cons v vs ih =>
    rw [List.foldl_cons, ih]
    rw [headerValues_headerAdd_eq hk]
    cases hv : headerValues h name with
    | none => simp
    | some ws => simp

/-- Folding `Header.Add` over a value list under a different key does not
disturb a lookup. -/
theorem headerValues_addValues_ne {k name : Str}
    (hk : canonicalKey k ≠ canonicalKey name) (vs : List Str) (h : Headers) :
    headerValues (vs.foldl (fun acc v => headerAdd acc k v) h) name =
      headerValues h name := by
  induction vs generalizing h with
  | nil => rfl
  | cons v vs ih => rw [List.foldl_cons, ih, headerValues_headerAdd_ne hk]

/-- The copy loop skips an excluded entry. -/
theorem copyHeaderEntry_excluded {acc : Headers} {kv : Str × List Str}
    (hx : excludedHeaders.contains (toLowerAscii kv.1) = true) :
    copyHeaderEntry acc kv = acc := by
  unfold copyHeaderEntry
  rw [if_pos hx]

/-- One copy-loop step under a different canonical key does not disturb a
lookup. -/
theorem headerValues_copyHeaderEntry_ne {acc : Headers} {kv : Str × List Str}
    {name : Str} (hk : canonicalKey kv.1 ≠ canonicalKey name) :
    headerValues (copyHeaderEntry acc kv) name = headerValues acc name := by
  unfold copyHeaderEntry
  split
  · rfl
  · rw [headerValues_addValues_ne hk]

/-- The full copy loop leaves a lookup alone when no entry has a matching
canonical key. -/
theorem headerValues_copyLoop_ne (hs : Headers) (acc : Headers) (name : Str)
    (hall : ∀ e ∈ hs, canonicalKey e.1 ≠ canonicalKey name) :
    headerValues (hs.foldl copyHeaderEntry acc) name = headerValues acc name := by
  induction hs generalizing acc with
  | nil => rfl
  | cons e t ih =>
    rw [List.foldl_cons, ih _ (fun x hx => hall x (by simp [hx])),
      headerValues_copyHeaderEntry_ne (hall e (by simp))]

/-- The full copy loop yields no entry for a name when every matching
inbound entry is excluded. -/
theorem headerValues_copyLoop_none (hs : Headers) (acc : Headers) (name : Str)
    (hacc : headerValues acc name = none)
    (hall : ∀ e ∈ hs, canonicalKey e.1 = canonicalKey name →
      excludedHeaders.contains (toLowerAscii e.1) = true) :
    headerValues (hs.foldl copyHeaderEntry acc) name = none := by
  induction hs generalizing acc with
  | nil => exact hacc
  | cons e t ih =>
    rw [List.foldl_cons]
    refine ih _ ?_ (fun x hx hcx => hall x (by simp [hx]) hcx)
    by_cases hk : canonicalKey e.1 = canonicalKey name
    · rw [copyHeaderEntry_excluded (hall e (by simp) hk)]
      exact hacc
    · rw [headerValues_copyHeaderEntry_ne hk]
      exact hacc

/-- The full copy loop carries a non-excluded inbound entry, values
intact. -/
theorem headerValues_copyLoop_mem (hs : Headers) (acc : Headers)
    (kv : Str × List Str) (hmem : kv ∈ hs)
    (hcanon : ∀ e ∈ hs, canonicalKey e.1 = e.1)
    (hnodup : (hs.map Prod.fst).Nodup)
    (hvals : kv.2 ≠ [])
    (hnx : excludedHeaders.contains (toLowerAscii kv.1) = false)
    (hacc : headerValues acc kv.1 = none) :
    headerValues (hs.foldl copyHeaderEntry acc) kv.1 = some kv.2 := by
  induction hs generalizing acc with
  | nil => cases hmem
  | cons e t ih =>
    rw [List.foldl_cons]
    rw [List.map_cons, List.nodup_cons] at hnodup
    rcases List.mem_cons.mp hmem with rfl | hmem2
    · -- the head is the entry itself: add it, the tail cannot touch it
      have hck : canonicalKey kv.1 = kv.1 := hcanon kv (by simp)
      have hstep : headerValues (copyHeaderEntry acc kv) kv.1 = some kv.2 := by
        unfold copyHeaderEntry
        rw [if_neg (by rw [hnx]; simp), headerValues_addValues rfl, hacc]
        simp [hvals]
      rw [headerValues_copyLoop_ne t _ kv.1 ?_ , hstep]
      intro x hx
      rw [hcanon x (by simp [hx]), hck]
      intro hcon
      exact hnodup.1 (by rw [← hcon]; exact List.mem_map_of_mem Prod.fst hx)
    · -- the entry sits in the tail; the head cannot touch its key
      have hck : canonicalKey kv.1 = kv.1 := hcanon kv (by simp [hmem2])
      have hhead : canonicalKey e.1 ≠ canonicalKey kv.1 := by
        rw [hcanon e (by simp), hck]
        intro hcon
        exact hnodup.1 (by rw [hcon]; exact List.mem_map_of_mem Prod.fst hmem2)
      refine ih _ hmem2 (fun x hx => hcanon x (by simp [hx])) hnodup.2 ?_
      rw [headerValues_copyHeaderEntry_ne hhead]
      exact hacc

/-- `Header.Set` under a different canonical key does not disturb a
lookup. -/
theorem find?_filter_ne (t : Headers) (ck n : Str) (hk : ck ≠ n) :
    List.find? (fun kv => kv.1 == n) (t.filter (fun kv => !(kv.1 == ck))) =
      List.find? (fun kv => kv.1 == n) t := by
  induction t with
  | nil => rfl
  | cons kv t ih =>
    by_cases hp : (kv.1 == n) = true
    · have hq : (kv.1 == ck) = false :=
        beq_eq_false_iff_ne.mpr (by rw [eq_of_beq hp]; exact fun hc => hk hc.symm)
      simp [List.filter_cons, List.find?_cons, hp, hq]
    · by_cases hq : (kv.1 == ck) = true
      · simp [List.filter_cons, List.find?_cons, hp, hq, ih]
      · simp [List.filter_cons, List.find?_cons, hp, hq, ih]

/-- `Header.Set` under a different canonical key does not disturb a
lookup. -/
theorem headerValues_headerSet_ne {h : Headers} {k v name : Str}
    (hk : canonicalKey k ≠ canonicalKey name) :
    headerValues (headerSet h k v) name = headerValues h name := by
  unfold headerSet headerValues
  rw [List.find?_append, find?_filter_ne _ _ _ hk]
  have hone : List.find? (fun kv => kv.1 == canonicalKey name)
      [(canonicalKey k, [v])] = none := by
    simp [List.find?_cons, beq_eq_false_iff_ne.mpr hk]
  rw [hone, Option.or_none]

/-- C7 counterexample: a `Proxy-Foo` header IS forwarded upstream although
its lower-cased name starts with "proxy-" — the code's exclusion set holds
only proxy-connection and proxy-authorization, not all proxy-* names as
the claim states. -/
theorem claim_C7_counterexample :
    hasPrefix (toLowerAscii (str "Proxy-Foo")) (str "proxy-") = true ∧
    headerValues
        (forwardRequestHeaders [(str "Proxy-Foo", [str "x"])]
          (str "key-123") (str "2023-06-01"))
        (str "Proxy-Foo") = some [str "x"] :=
  ⟨by decide, by decide⟩

/-- C7 as amended: the upstream request drops exactly the nine-name
exclusion set {host, connection, proxy-connection, proxy-authorization,
content-length, transfer-encoding, te, trailer, upgrade} (matched on the
lower-cased name) and carries every other inbound header with its values,
except that Content-Type, anthropic-version and (when an API key is given)
x-api-key are set by the proxy itself. -/
theorem claim_C7 (headers : Headers) (apiKey version name : Str)
    (hcanon : ∀ kv ∈ headers, canonicalKey kv.1 = kv.1)
    (hnodup : (headers.map Prod.fst).Nodup)
    (hvals : ∀ kv ∈ headers, kv.2 ≠ [])
    (hname : canonicalKey name = name) :
    (toLowerAscii name ∈ excludedHeaders →
      headerValues (forwardRequestHeaders headers apiKey version) name = none) ∧
    (∀ kv ∈ headers,
      excludedHeaders.contains (toLowerAscii kv.1) = false →
      canonicalKey kv.1 ∉
        [str "Content-Type", str "Anthropic-Version", str "X-Api-Key"] →
      headerValues (forwardRequestHeaders headers apiKey version) kv.1 =
        some kv.2) := by
  constructor
  · intro hex
    have hnCT : canonicalKey (str "Content-Type") ≠ canonicalKey name := by
      rw [hname, (by decide : canonicalKey (str "Content-Type") = str "Content-Type")]
      intro hcon
      rw [← hcon] at hex
      exact absurd hex (by decide)
    have hnAV : canonicalKey (str "anthropic-version") ≠ canonicalKey name := by
      rw [hname, (by decide : canonicalKey (str "anthropic-version") = str "Anthropic-Version")]
      intro hcon
      rw [← hcon] at hex
      exact absurd hex (by decide)
    have hnXA : canonicalKey (str "x-api-key") ≠ canonicalKey name := by
      rw [hname, (by decide : canonicalKey (str "x-api-key") = str "X-Api-Key")]
      intro hcon
      rw [← hcon] at hex
      exact absurd hex (by decide)
    have hcopy : headerValues (headers.foldl copyHeaderEntry []) name = none := by
      refine headerValues_copyLoop_none headers [] name rfl ?_
      intro e hm hk
      have he : e.1 = name := by rw [← hcanon e hm, hk, hname]
      rw [he]
      rw [List.contains_eq_any_beq]
      refine List.any_eq_true.mpr ⟨toLowerAscii name, hex, ?_⟩
      exact beq_self_eq_true _
    unfold forwardRequestHeaders
    by_cases hak : apiKey = []
    · rw [if_pos hak, headerValues_headerSet_ne hnAV,
        headerValues_headerSet_ne hnCT]
      exact hcopy
    · rw [if_neg hak, headerValues_headerSet_ne hnXA,
        headerValues_headerSet_ne hnAV, headerValues_headerSet_ne hnCT]
      exact hcopy
  · intro kv hmem hnx hnover
    have hnCT : canonicalKey (str "Content-Type") ≠ canonicalKey kv.1 := by
      rw [(by decide : canonicalKey (str "Content-Type") = str "Content-Type")]
      intro hcon
      exact hnover (by rw [← hcon]; simp)
    have hnAV : canonicalKey (str "anthropic-version") ≠ canonicalKey kv.1 := by
      rw [(by decide : canonicalKey (str "anthropic-version") = str "Anthropic-Version")]
      intro hcon
      exact hnover (by rw [← hcon]; simp)
    have hnXA : canonicalKey (str "x-api-key") ≠ canonicalKey kv.1 := by
      rw [(by decide : canonicalKey (str "x-api-key") = str "X-Api-Key")]
      intro hcon
      exact hnover (by rw [← hcon]; simp)
    have hcopy : headerValues (headers.foldl copyHeaderEntry []) kv.1 = some kv.2 :=
      headerValues_copyLoop_mem headers [] kv hmem hcanon hnodup
        (hvals kv hmem) hnx rfl
    unfold forwardRequestHeaders
    by_cases hak : apiKey = []
    · rw [if_pos hak, headerValues_headerSet_ne hnAV,
        headerValues_headerSet_ne hnCT]
      exact hcopy
    · rw [if_neg hak, headerValues_headerSet_ne hnXA,
        headerValues_headerSet_ne hnAV, headerValues_headerSet_ne hnCT]
      exact hcopy

/-- Witness for C7: the scenario headers forwarded with an API key carry
X-Trace-Id but not Host, Connection or Content-Length. -/
theorem claim_C7_witness :
    headerValues (forwardRequestHeaders hdrsScenario (str "key-123")
      (str "2023-06-01")) (str "Host") = none ∧
    headerValues (forwardRequestHeaders hdrsScenario (str "key-123")
      (str "2023-06-01")) (str "Connection") = none ∧
    headerValues (forwardRequestHeaders hdrsScenario (str "key-123")
      (str "2023-06-01")) (str "Content-Length") = none ∧
    headerValues (forwardRequestHeaders hdrsScenario (str "key-123")
      (str "2023-06-01")) (str "X-Trace-Id") = some [str "trace-1"] :=
  ⟨(claim_C7 hdrsScenario (str "key-123") (str "2023-06-01") (str "Host")
      (by decide) (by decide) (by decide) (by decide)).1 (by decide),
   (claim_C7 hdrsScenario (str "key-123") (str "2023-06-01") (str "Connection")
      (by decide) (by decide) (by decide) (by decide)).1 (by decide),
   (claim_C7 hdrsScenario (str "key-123") (str "2023-06-01") (str "Content-Length")
      (by decide) (by decide) (by decide) (by decide)).1 (by decide),
   (claim_C7 hdrsScenario (str "key-123") (str "2023-06-01") (str "X-Trace-Id")
      (by decide) (by decide) (by decide) (by decide)).2
     (str "X-Trace-Id", [str "trace-1"]) (by decide) (by decide) (by decide)⟩

/-- C8: a non-2xx upstream response is passed through verbatim — the client
gets the upstream status and the original (possibly still compressed) body
bytes, while the persisted record stores the decompressed text: the
original bytes when the response is not gzip-encoded, the gunzipped bytes
when it is.  Both the non-streaming handler and the error branch of the
streaming handler behave this way. -/
theorem claim_C8 (gunzip : Str → Option Str) (resp : UpstreamResponse)
    (body : Str) (hbody : resp.Body = some body)
    (hnon2xx : resp.StatusCode < 200 ∨ 300 ≤ resp.StatusCode) :
    handleNonStreamingResponse gunzip resp =
      (ClientWrite.raw resp.StatusCode body,
       some { StatusCode := resp.StatusCode
              BodyText := decompressForLogging gunzip body resp.Header
              IsStreaming := false }) ∧
    (strContains (toLowerAscii (headerGet resp.Header (str "Content-Encoding")))
        (str "gzip") = false →
      decompressForLogging gunzip body resp.Header = body) ∧
    (∀ d,
      strContains (toLowerAscii (headerGet resp.Header (str "Content-Encoding")))
          (str "gzip") = true →
      gunzip body = some d →
      decompressForLogging gunzip body resp.Header = d) ∧
    handleStreamingErrorResponse gunzip resp =
      (ClientWrite.raw resp.StatusCode body,
       { StatusCode := resp.StatusCode
         BodyText := decompressForLogging gunzip body resp.Header
         IsStreaming := true }) := by
  refine ⟨?_, ?_, ?_, ?_⟩
  · unfold handleNonStreamingResponse
    rw [hbody]
    dsimp only
    split <;> rfl
  · intro hng
    unfold decompressForLogging
    rw [if_neg (by rw [hng]; simp)]
  · intro d hgz hd
    unfold decompressForLogging
    rw [if_pos hgz, hd]
  · unfold handleStreamingErrorResponse
    rw [hbody]

/-- Witness for C8: an upstream 429 with an uncompressed body reaches the
client as 429 with the same bytes, and the log stores the same text. -/
theorem claim_C8_witness :
    handleNonStreamingResponse (fun _ => none)
        { StatusCode := 429, Header := [], Body := some (str "rate limited") } =
      (ClientWrite.raw 429 (str "rate limited"),
       some { StatusCode := 429, BodyText := str "rate limited",
              IsStreaming := false }) ∧
    decompressForLogging (fun _ => none) (str "rate limited") [] =
      str "rate limited" :=
  ⟨(claim_C8 (fun _ => none)
      { StatusCode := 429, Header := [], Body := some (str "rate limited") }
      (str "rate limited") rfl (Or.inr (by decide))).1,
   (claim_C8 (fun _ => none)
      { StatusCode := 429, Header := [], Body := some (str "rate limited") }
      (str "rate limited") rfl (Or.inr (by decide))).2.1 (by decide)⟩

end ClaudeProxy
